import Mathlib

/-!
Shallow embedding of the activity-check core of the `activity-proof`
repository (src/src/lib/activityCheck.ts, src/src/lib/activityCheck/index.ts,
src/src/lib/activityCheck/iopn.ts, the pharos checker, and
src/src/lib/contracts.ts), together with theorems settling the spec claims.

JS numbers are modelled as `Int` (all arithmetic here stays integral),
`localStorage` as an association list from string keys to stored cache
records, network probes as boolean-valued functions on chunks
(deterministic abstractions of the awaited fetch results), and fallible
operations as `Except`/`Option`.
-/

namespace ActivityProof

/-- The `Month` union type from src/types (six fixed months). -/
inductive Month
  | September
  | October
  | November
  | December
  | January
  | February
deriving DecidableEq, Repr

/-- The month name string exactly as it appears in cache keys and configs. -/
def Month.toName : Month → String
  | .September => "September"
  | .October => "October"
  | .November => "November"
  | .December => "December"
  | .January => "January"
  | .February => "February"

/-- The `ChainId` union type from src/types (five supported slugs). -/
inductive ChainId
  | pharosAtlantic
  | ethereumSepolia
  | baseSepolia
  | arbitrumSepolia
  | iopnTestnet
deriving DecidableEq, Repr

/-- The chain slug string as used in cache keys and dispatch. -/
def ChainId.slug : ChainId → String
  | .pharosAtlantic => "pharos-atlantic"
  | .ethereumSepolia => "ethereum-sepolia"
  | .baseSepolia => "base-sepolia"
  | .arbitrumSepolia => "arbitrum-sepolia"
  | .iopnTestnet => "iopn-testnet"

/-- `BLOCK_CHUNK_SIZE` (activityCheck.ts line 5). -/
def BLOCK_CHUNK_SIZE : Int := 50000

/-- `IOPN_BLOCK_CHUNK_SIZE` (activityCheck.ts line 6). -/
def IOPN_BLOCK_CHUNK_SIZE : Int := 500000

/-- `MAX_CONCURRENT_REQUESTS` (activityCheck.ts line 7). -/
def MAX_CONCURRENT_REQUESTS : Nat := 5

/-- `IOPN_MAX_CONCURRENT_REQUESTS` (activityCheck.ts line 8). -/
def IOPN_MAX_CONCURRENT_REQUESTS : Nat := 2

/-- `PROXY_CHAINS` (activityCheck.ts line 11). -/
def PROXY_CHAINS : List ChainId := [.iopnTestnet]

/-- `Math.ceil(a / b)` for integer `a` and positive integer `b`
(`Int.ediv` is floor division for a positive divisor). -/
def ceilDiv (a b : Int) : Int := (a + b - 1) / b

/-- A block sub-range `{start, end}` generated by the scanner.  The source
field `end` is a reserved word in Lean and is rendered `stop`. -/
structure Chunk where
  start : Int
  stop : Int
deriving DecidableEq, Repr

/-- The chunk-generation loop shared verbatim by `checkActivityForMonth`
(activityCheck.ts lines 190-199) and `checkActivity` in the iopn and pharos
checkers:
`totalChunks = Math.ceil((endBlock - startBlock) / chunkSize)`, and for each
`i < totalChunks` the chunk
`{start: startBlock + i*chunkSize, end: min(start + chunkSize - 1, endBlock)}`. -/
def makeChunks (startBlock endBlock chunkSize : Int) : List Chunk :=
  (List.range (ceilDiv (endBlock - startBlock) chunkSize).toNat).map fun (i : Nat) =>
    let chunkStart := startBlock + (i : Int) * chunkSize
    { start := chunkStart, stop := min (chunkStart + chunkSize - 1) endBlock }

/-- Whether block `b` lies in some generated chunk (inclusive bounds, exactly
the range the probe query `startblock=..&endblock=..` covers). -/
def coversBlock (chunks : List Chunk) (b : Int) : Bool :=
  chunks.any fun ch => decide (ch.start ≤ b ∧ b ≤ ch.stop)

/-- The batch slicing of the scan loop
`for (let i = 0; i < chunks.length; i += step) { batch = chunks.slice(i, i + sliceSize) }`.
`step` and `sliceSize` are passed separately because activityCheck.ts
line 203 steps by `maxConcurrent` while line 204 slices with the constant
`MAX_CONCURRENT_REQUESTS`; the per-chain checkers use the same value for
both. -/
def scanBatches (chunks : List Chunk) (step sliceSize : Nat) : List (List Chunk) :=
  (List.range ((chunks.length + step - 1) / step)).map fun k =>
    (chunks.drop (k * step)).take sliceSize

/-- Sequential processing of the batches with early exit: each batch issues
all of its probes concurrently (`Promise.all`), the batch is positive when
any probe returns true, and a positive batch stops the loop.  Returns the
final boolean together with the list of probes actually issued, in order. -/
def runBatches (p : Chunk → Bool) : List (List Chunk) → Bool × List Chunk
  | [] => (false, [])
  | b :: rest =>
    if b.any p then (true, b)
    else
      let r := runBatches p rest
      (r.1, b ++ r.2)

/-- The batch list built by the block-based path of `checkActivityForMonth`
(activityCheck.ts lines 186-204): proxy chains get `IOPN_BLOCK_CHUNK_SIZE`
and `IOPN_MAX_CONCURRENT_REQUESTS`, direct chains `BLOCK_CHUNK_SIZE` and
`MAX_CONCURRENT_REQUESTS`; the loop steps by `maxConcurrent` but slices with
the constant `MAX_CONCURRENT_REQUESTS`. -/
def checkActivityForMonthBatches (chainSlug : ChainId) (startBlock endBlock : Int) :
    List (List Chunk) :=
  let chunkSize := if PROXY_CHAINS.contains chainSlug then IOPN_BLOCK_CHUNK_SIZE
    else BLOCK_CHUNK_SIZE
  let maxConcurrent := if PROXY_CHAINS.contains chainSlug then IOPN_MAX_CONCURRENT_REQUESTS
    else MAX_CONCURRENT_REQUESTS
  scanBatches (makeChunks startBlock endBlock chunkSize) maxConcurrent MAX_CONCURRENT_REQUESTS

/-- The block-based scanning part of `checkActivityForMonth`
(activityCheck.ts lines 186-217), with the probe abstracted.  Returns the
resolved boolean and the probes issued. -/
def checkActivityForMonthScan (p : Chunk → Bool) (chainSlug : ChainId)
    (startBlock endBlock : Int) : Bool × List Chunk :=
  runBatches p (checkActivityForMonthBatches chainSlug startBlock endBlock)

namespace Iopn

/-- `CHUNK_SIZE` (iopn.ts line 1). -/
def CHUNK_SIZE : Int := 500000

/-- `MAX_CONCURRENT` (iopn.ts line 2). -/
def MAX_CONCURRENT : Nat := 2

/-- Outcome of the explorer `getblocknobytime` request made by
`getLatestBlock` (iopn.ts lines 6-26): either the fetch/JSON step threw, or
a JSON value with a `status` string and an optional `result.blockNumber`
string was obtained. -/
inductive GetBlockOutcome
  | failure
  | response (status : String) (blockNumber : Option String)
deriving DecidableEq, Repr

/-- Accumulator pass of decimal parsing. -/
def digitsToNat : List Char → Nat → Nat
  | [], acc => acc
  | ch :: rest, acc => digitsToNat rest (acc * 10 + (ch.toNat - 48))

/-- `parseInt(s, 10)` as used on the well-formed decimal block-number
strings the explorer returns.  A non-numeric string yields NaN in JS; NaN
is collapsed to 0 here, which is observationally equivalent downstream:
both are falsy in `if (latestBlock)`, so neither clamps the end block. -/
def parseIntDec (s : String) : Int := (digitsToNat s.data 0 : Int)

/-- `getLatestBlock` (iopn.ts lines 6-26) with the 5-minute cache and the
HTTP layer abstracted into the request outcome: returns a block number when
`data.status === '1' && data.result?.blockNumber` is truthy (a present,
non-empty string), and `null` on any failure or other response. -/
def getLatestBlock (outcome : GetBlockOutcome) : Option Int :=
  match outcome with
  | .failure => none
  | .response status blockNumber =>
    match blockNumber with
    | some bn => if status == "1" && bn != "" then some (parseIntDec bn) else none
    | none => none

/-- The end-block clamp at the top of `checkActivity` (iopn.ts lines 74-78):
`if (latestBlock) { endBlock = Math.min(endBlock, latestBlock); }`.
JS truthiness: `null` and `0` are falsy, so a zero tip does not clamp. -/
def effectiveEndBlock (latestBlock : Option Int) (endBlock : Int) : Int :=
  match latestBlock with
  | some b => if b ≠ 0 then min endBlock b else endBlock
  | none => endBlock

/-- Batch list of the iopn scan for a given (already clamped) range. -/
def batchesOf (startBlock endBlock : Int) : List (List Chunk) :=
  scanBatches (makeChunks startBlock endBlock CHUNK_SIZE) MAX_CONCURRENT MAX_CONCURRENT

/-- `checkActivity` (iopn.ts lines 68-108): clamp the end block via the
resolved tip, return false outright when `startBlock > endBlock`, otherwise
scan the chunks in batches of `MAX_CONCURRENT` with early exit.  Returns the
boolean and the probes issued. -/
def checkActivity (p : Chunk → Bool) (latestBlock : Option Int)
    (startBlock endBlock : Int) : Bool × List Chunk :=
  if startBlock > effectiveEndBlock latestBlock endBlock then (false, [])
  else runBatches p (batchesOf startBlock (effectiveEndBlock latestBlock endBlock))

/-- Spec-side comparison point for the refinement claim about failed tip
resolution, following the spec's words "the same chunk set as if tip
resolution were never attempted": the identical scan with no clamping
step at all. -/
def scanWithoutTipResolution (p : Chunk → Bool) (startBlock endBlock : Int) :
    Bool × List Chunk :=
  if startBlock > endBlock then (false, [])
  else runBatches p (batchesOf startBlock endBlock)

end Iopn

namespace Pharos

/-- `CHUNK_SIZE` (pharos checker line 3). -/
def CHUNK_SIZE : Int := 100000

/-- `MAX_CONCURRENT` (pharos checker line 4). -/
def MAX_CONCURRENT : Nat := 5

/-- Batch list of the pharos scan for a given (already clamped) range. -/
def batchesOf (startBlock endBlock : Int) : List (List Chunk) :=
  scanBatches (makeChunks startBlock endBlock CHUNK_SIZE) MAX_CONCURRENT MAX_CONCURRENT

/-- `checkActivity` (pharos checker): identical in shape to the iopn
checker, with its own chunk size and concurrency. -/
def checkActivity (p : Chunk → Bool) (latestBlock : Option Int)
    (startBlock endBlock : Int) : Bool × List Chunk :=
  if startBlock > Iopn.effectiveEndBlock latestBlock endBlock then (false, [])
  else runBatches p (batchesOf startBlock (Iopn.effectiveEndBlock latestBlock endBlock))

end Pharos

/-- A stored cache record `{hasActivity, timestamp}` (the JSON value written
by `setCachedResult`). -/
structure CacheValue where
  hasActivity : Bool
  timestamp : Int
deriving DecidableEq, Repr

/-- `localStorage`, modelled as an association list from keys to stored
cache records. -/
abbrev Store := List (String × CacheValue)

/-- `localStorage.getItem`. -/
def getItem (store : Store) (k : String) : Option CacheValue :=
  (store.find? fun kv => kv.1 == k).map (·.2)

/-- `localStorage.setItem`: a key-value overwrite (the model keeps the fresh
binding at the front; enumeration order is not observed by any claim). -/
def setItem (store : Store) (k : String) (v : CacheValue) : Store :=
  (k, v) :: store.filter fun kv => kv.1 != k

/-- `localStorage.removeItem`. -/
def removeItem (store : Store) (k : String) : Store :=
  store.filter fun kv => kv.1 != k

/-- `getCacheKey` (activityCheck.ts lines 49-51 and index.ts lines 6-8). -/
def getCacheKey (address : String) (chainSlug : ChainId) (month : Month) : String :=
  "activity_" ++ chainSlug.slug ++ "_" ++ address.toLower ++ "_" ++ month.toName

/-- `getCachedResult` (activityCheck.ts lines 53-64 and index.ts lines
10-21): return the stored boolean when the entry is younger than one hour,
`null` otherwise; the read never mutates the store. -/
def getCachedResult (store : Store) (now : Int) (address : String) (chainSlug : ChainId)
    (month : Month) : Option Bool :=
  match getItem store (getCacheKey address chainSlug month) with
  | some v => if now - v.timestamp < 3600000 then some v.hasActivity else none
  | none => none

/-- `setCachedResult` (activityCheck.ts lines 66-72 and index.ts lines
23-29). -/
def setCachedResult (store : Store) (now : Int) (address : String) (chainSlug : ChainId)
    (month : Month) (hasActivity : Bool) : Store :=
  setItem store (getCacheKey address chainSlug month) ⟨hasActivity, now⟩

/-- One `MonthConfig` entry of contracts.ts. -/
structure MonthConfig where
  name : Month
  year : Int
  chainSlug : ChainId
  contractAddress : String
  startBlock : Int
  endBlock : Int
  metadataURI : String
deriving DecidableEq, Repr

/-- The environment of `process.env` lookups. -/
abbrev Env := String → Option String

/-- `process.env.KEY || '0x'` (an absent or empty variable is falsy). -/
def envAddr (env : Env) (k : String) : String :=
  match env k with
  | some s => if s == "" then "0x" else s
  | none => "0x"

/-- `PHAROS_ATLANTIC_MONTHS` (contracts.ts lines 74-120). -/
def PHAROS_ATLANTIC_MONTHS (env : Env) : List MonthConfig :=
  [ { name := .October, year := 2025, chainSlug := .pharosAtlantic,
      contractAddress := envAddr env "NEXT_PUBLIC_PHAROS_OCTOBER_ADDRESS",
      startBlock := 74250, endBlock := 2286948,
      metadataURI := "ipfs://bafkreibf33bsbdof7cpnusn25r7qdgpouky6u4jvyb574reqj7yvh7e6ji" },
    { name := .November, year := 2025, chainSlug := .pharosAtlantic,
      contractAddress := envAddr env "NEXT_PUBLIC_PHAROS_NOVEMBER_ADDRESS",
      startBlock := 2286949, endBlock := 5147719,
      metadataURI := "ipfs://bafkreicgisxbt2airnuc6ail4zh3bjh4mtj2goeqfwsmbiqpvau2ke53mi" },
    { name := .December, year := 2025, chainSlug := .pharosAtlantic,
      contractAddress := envAddr env "NEXT_PUBLIC_PHAROS_DECEMBER_ADDRESS",
      startBlock := 5147720, endBlock := 8291372,
      metadataURI := "ipfs://bafkreibfpm6eihhsb6unjwxgdajpvjajiuwdr2qszb3hddon4vw46gaazy" },
    { name := .January, year := 2026, chainSlug := .pharosAtlantic,
      contractAddress := envAddr env "NEXT_PUBLIC_PHAROS_JANUARY_ADDRESS",
      startBlock := 8291373, endBlock := 12326699,
      metadataURI := "ipfs://bafkreif5ccgpnjsp3hfeympzlapndiv6w57jl22yn4gj4rffjfkodkdzyq" },
    { name := .February, year := 2026, chainSlug := .pharosAtlantic,
      contractAddress := envAddr env "NEXT_PUBLIC_PHAROS_FEBRUARY_ADDRESS",
      startBlock := 12342700, endBlock := 15982250,
      metadataURI := "ipfs://bafkreienlopqfgcqboytlkmppvgwaz5dd4mhtw2jioakhcixffszjkqnkm" } ]

/-- `IOPN_TESTNET_MONTHS` (contracts.ts lines 124-179). -/
def IOPN_TESTNET_MONTHS (env : Env) : List MonthConfig :=
  [ { name := .September, year := 2025, chainSlug := .iopnTestnet,
      contractAddress := envAddr env "NEXT_PUBLIC_IOPN_SEPTEMBER_ADDRESS",
      startBlock := 1, endBlock := 1840000,
      metadataURI := "ipfs://bafkreif3qwdgs6lxbngmdxp3ozym47avduc5ni2m4jioaa4lmuiqnlobu4" },
    { name := .October, year := 2025, chainSlug := .iopnTestnet,
      contractAddress := envAddr env "NEXT_PUBLIC_IOPN_OCTOBER_ADDRESS",
      startBlock := 1840001, endBlock := 3876000,
      metadataURI := "ipfs://bafkreie2xkt2rqikimqomwo4uaxznj4e7vqurvydyubgtrqrhf5xes2pmm" },
    { name := .November, year := 2025, chainSlug := .iopnTestnet,
      contractAddress := envAddr env "NEXT_PUBLIC_IOPN_NOVEMBER_ADDRESS",
      startBlock := 3876001, endBlock := 5842000,
      metadataURI := "ipfs://bafkreihzhiw5g3l3wlvqgd3pn2w53kguj6khcxe4ohylngapfa2v5ndmcy" },
    { name := .December, year := 2025, chainSlug := .iopnTestnet,
      contractAddress := envAddr env "NEXT_PUBLIC_IOPN_DECEMBER_ADDRESS",
      startBlock := 5842001, endBlock := 7884500,
      metadataURI := "ipfs://bafkreih4mnsw256mpls56lgb53fotuci7y2zttehypcyrmwoq4ph234lxe" },
    { name := .January, year := 2026, chainSlug := .iopnTestnet,
      contractAddress := envAddr env "NEXT_PUBLIC_IOPN_JANUARY_ADDRESS",
      startBlock := 7884501, endBlock := 9916800,
      metadataURI := "ipfs://bafkreih3lis743od4n6q2pu6nw3lincmwi7u64k4hdoedytl3go5lsekze" },
    { name := .February, year := 2026, chainSlug := .iopnTestnet,
      contractAddress := envAddr env "NEXT_PUBLIC_IOPN_FEBRUARY_ADDRESS",
      startBlock := 9916801, endBlock := 99999999,
      metadataURI := "ipfs://bafkreig62kkt2cteibt4lmxil6roa63odj5wmtdhgp6mwn2l44xpig7cyq" } ]

/-- `getMonthConfigsForChain` (contracts.ts lines 191-193): the registry
lookup, an empty list for chains with no configured months. -/
def getMonthConfigsForChain (env : Env) (chainSlug : ChainId) : List MonthConfig :=
  match chainSlug with
  | .pharosAtlantic => PHAROS_ATLANTIC_MONTHS env
  | .iopnTestnet => IOPN_TESTNET_MONTHS env
  | _ => []

/-- The one hard error of the subsystem:
`throw new Error(`+"Invalid month ... for chain ..."+`)`. -/
inductive CheckError
  | invalidMonth (month : Month) (chainSlug : ChainId)
deriving DecidableEq, Repr

/-- `getChainChecker` (index.ts lines 31-40). -/
def getChainChecker (chainSlug : ChainId) :
    Option ((Chunk → Bool) → Option Int → Int → Int → Bool × List Chunk) :=
  match chainSlug with
  | .pharosAtlantic => some Pharos.checkActivity
  | .iopnTestnet => some Iopn.checkActivity
  | _ => none

/-- `checkActivityForMonth` (index.ts lines 42-68): cache lookup, then
config lookup (throwing on an unknown month), then per-chain checker
dispatch (returning false with no cache write when no checker exists),
then the scan followed by a cache write.  The probe and the resolved tip
are abstracted parameters; the result carries the updated store. -/
def checkActivityForMonth (p : Chunk → Bool) (latestBlock : Option Int) (env : Env)
    (store : Store) (now : Int) (address : String) (chainSlug : ChainId) (month : Month) :
    Except CheckError (Bool × Store) :=
  match getCachedResult store now address chainSlug month with
  | some cached => .ok (cached, store)
  | none =>
    match (getMonthConfigsForChain env chainSlug).find? (fun c => c.name == month) with
    | none => .error (.invalidMonth month chainSlug)
    | some config =>
      match getChainChecker chainSlug with
      | none => .ok (false, store)
      | some checker =>
        let hasActivity := (checker p latestBlock config.startBlock config.endBlock).1
        .ok (hasActivity, setCachedResult store now address chainSlug month hasActivity)

/-- The observable outcome of one `checkAllMonthsActivity` run: the returned
`Record<Month, boolean>`, the `onMonthComplete` events in emission order,
and the months for which `checkActivityForMonth` was actually invoked
(i.e. months that may reach the network and the cache). -/
structure AllMonthsOutcome where
  results : Month → Bool
  events : List (Month × Bool)
  probed : List Month

/-- Whether a month's contract address is unset:
`!config.contractAddress || config.contractAddress === '0x'`. -/
def unsetAddr (config : MonthConfig) : Bool :=
  config.contractAddress == "" || config.contractAddress == "0x"

/-- One iteration of the `checkAllMonthsActivity` loop of index.ts
(lines 87-97): skip unset months, reporting false, touching neither the
results record nor the network; otherwise run the check, record the result
and report it. -/
def indexStep (checkMonth : Month → Bool) (acc : AllMonthsOutcome) (config : MonthConfig) :
    AllMonthsOutcome :=
  if unsetAddr config then
    { acc with events := acc.events ++ [(config.name, false)] }
  else
    let hasActivity := checkMonth config.name
    { results := fun m => if m == config.name then hasActivity else acc.results m,
      events := acc.events ++ [(config.name, hasActivity)],
      probed := acc.probed ++ [config.name] }

/-- `checkAllMonthsActivity` (index.ts lines 70-100): the all-false initial
record, then the sequential month loop with the unset-address skip. -/
def checkAllMonthsActivityIndex (checkMonth : Month → Bool) (configs : List MonthConfig) :
    AllMonthsOutcome :=
  configs.foldl (indexStep checkMonth) ⟨fun _ => false, [], []⟩

/-- One iteration of the `checkAllMonthsActivity` loop of activityCheck.ts
(lines 237-241): every configured month is checked, with no skip. -/
def monolithStep (checkMonth : Month → Bool) (acc : AllMonthsOutcome) (config : MonthConfig) :
    AllMonthsOutcome :=
  let hasActivity := checkMonth config.name
  { results := fun m => if m == config.name then hasActivity else acc.results m,
    events := acc.events ++ [(config.name, hasActivity)],
    probed := acc.probed ++ [config.name] }

/-- `checkAllMonthsActivity` (activityCheck.ts lines 220-244). -/
def checkAllMonthsActivityMonolith (checkMonth : Month → Bool) (configs : List MonthConfig) :
    AllMonthsOutcome :=
  configs.foldl (monolithStep checkMonth) ⟨fun _ => false, [], []⟩

/-- `key.startsWith('activity_')`, modelled on the character list (the
byte-position based String functions of the core library do not evaluate
inside the kernel). -/
def startsWithActivity (k : String) : Bool :=
  k.data.take "activity_".data.length == "activity_".data

/-- `clearActivityCache` (activityCheck.ts lines 246-262 and index.ts lines
102-118): with a truthy address and chain, remove that pair's configured
month keys; otherwise remove every key with the reserved `activity_`
leading marker. -/
def clearActivityCache (address : Option String) (chainSlug : Option ChainId) (env : Env)
    (store : Store) : Store :=
  match address, chainSlug with
  | some a, some c =>
    if a != "" then
      (getMonthConfigsForChain env c).foldl
        (fun st config => removeItem st (getCacheKey a c config.name)) store
    else store.filter fun kv => !(startsWithActivity kv.1)
  | _, _ => store.filter fun kv => !(startsWithActivity kv.1)

/-- One transaction record of a `TxListResponse` (fields `from` and `to`
are reserved words in Lean and rendered `fromAddr`/`toAddr`). -/
structure Tx where
  blockNumber : String
  timeStamp : String
  hash : String
  fromAddr : String
  toAddr : String
  value : String
deriving DecidableEq, Repr

/-- A parsed transaction-list response; `result` is optional because the
guard `data.result &&` tolerates its absence. -/
structure TxListResponse where
  status : String
  message : String
  result : Option (List Tx)
deriving DecidableEq, Repr

/-- Outcome of one probe HTTP exchange: transport failure (`fetch` threw),
malformed body (`response.json()` threw), or a parsed response. -/
inductive FetchOutcome
  | transportError
  | parseError
  | response (data : TxListResponse)
deriving DecidableEq, Repr

/-- `fetchTransactions` (activityCheck.ts lines 91-115) and the identical
`fetchChunk` of the per-chain checkers, with the HTTP exchange abstracted:
`data.status === '1' && data.result && data.result.length > 0`, any thrown
error caught and mapped to false. -/
def fetchTransactions (outcome : FetchOutcome) : Bool :=
  match outcome with
  | .transportError => false
  | .parseError => false
  | .response data =>
    data.status == "1" &&
      (match data.result with
       | some txs => decide (0 < txs.length)
       | none => false)

/-! ## Helper lemmas -/

theorem ceilDiv_mul_ge (a c : Int) (hc : 0 < c) : a ≤ ceilDiv a c * c := by
  unfold ceilDiv
  have h := Int.ediv_add_emod (a + c - 1) c
  have hr0 : 0 ≤ (a + c - 1) % c := Int.emod_nonneg _ (ne_of_gt hc)
  have hrc : (a + c - 1) % c < c := Int.emod_lt_of_pos _ hc
  nlinarith [h, hr0, hrc]

theorem ceilDiv_mul_le (a c : Int) (hc : 0 < c) : ceilDiv a c * c ≤ a + c - 1 := by
  unfold ceilDiv
  have h := Int.ediv_add_emod (a + c - 1) c
  have hr0 : 0 ≤ (a + c - 1) % c := Int.emod_nonneg _ (ne_of_gt hc)
  nlinarith [h, hr0]

theorem makeChunks_length (s e c : Int) :
    (makeChunks s e c).length = (ceilDiv (e - s) c).toNat := by
  unfold makeChunks
  rw [List.length_map, List.length_range]

theorem mem_makeChunks (s e c : Int) (ch : Chunk) :
    ch ∈ makeChunks s e c ↔ ∃ i : Nat, i < (ceilDiv (e - s) c).toNat ∧
      ch = { start := s + (i : Int) * c, stop := min (s + (i : Int) * c + c - 1) e } := by
  unfold makeChunks
  rw [List.mem_map]
  constructor
  · rintro ⟨i, hi, rfl⟩
    exact ⟨i, List.mem_range.mp hi, rfl⟩
  · rintro ⟨i, hi, rfl⟩
    exact ⟨i, List.mem_range.mpr hi, rfl⟩

theorem makeChunks_nil (s e c : Int) (hc : 0 < c) (h : e < s) : makeChunks s e c = [] := by
  have h2 : ceilDiv (e - s) c ≤ 0 := by
    unfold ceilDiv
    have hz : (c - 1) / c = 0 := Int.ediv_eq_zero_of_lt (by omega) (by omega)
    have hle : (e - s + c - 1) / c ≤ (c - 1) / c := Int.ediv_le_ediv hc (by omega)
    omega
  have h3 : (ceilDiv (e - s) c).toNat = 0 := by omega
  simp [makeChunks, h3]

/-- The core coverage characterization of the chunk generator: block `b`
lies in some generated chunk exactly when it lies in
`[startBlock, min endBlock (startBlock + totalChunks*chunkSize - 1)]`. -/
theorem coversBlock_makeChunks_iff (s e c b : Int) (hc : 0 < c) :
    coversBlock (makeChunks s e c) b = true ↔
      s ≤ b ∧ b ≤ min e (s + ceilDiv (e - s) c * c - 1) := by
  unfold coversBlock
  rw [List.any_eq_true]
  constructor
  · rintro ⟨ch, hmem, hch⟩
    rw [mem_makeChunks] at hmem
    obtain ⟨i, hi, rfl⟩ := hmem
    simp only [decide_eq_true_eq] at hch
    obtain ⟨h1, h2⟩ := hch
    have hbe : b ≤ e := le_trans h2 (min_le_right _ _)
    have hb1 : b ≤ s + (i : Int) * c + c - 1 := le_trans h2 (min_le_left _ _)
    have hit : (i : Int) + 1 ≤ ceilDiv (e - s) c := by omega
    have hmul : ((i : Int) + 1) * c ≤ ceilDiv (e - s) c * c :=
      mul_le_mul_of_nonneg_right hit (le_of_lt hc)
    have hic : 0 ≤ (i : Int) * c := mul_nonneg (Int.natCast_nonneg i) (le_of_lt hc)
    constructor
    · linarith
    · exact le_min hbe (by nlinarith)
  · rintro ⟨hb1, hb2⟩
    have hbe : b ≤ e := le_trans hb2 (min_le_left _ _)
    have hbt : b ≤ s + ceilDiv (e - s) c * c - 1 := le_trans hb2 (min_le_right _ _)
    have hdm := Int.ediv_add_emod (b - s) c
    have hr0 : 0 ≤ (b - s) % c := Int.emod_nonneg _ (ne_of_gt hc)
    have hrc : (b - s) % c < c := Int.emod_lt_of_pos _ hc
    have hq0 : 0 ≤ (b - s) / c := Int.ediv_nonneg (by omega) (le_of_lt hc)
    have hcq : c * ((b - s) / c) ≤ b - s := by linarith
    have hcq2 : b - s < c * ((b - s) / c) + c := by linarith
    have hqt : (b - s) / c < ceilDiv (e - s) c := by
      by_contra hle
      push_neg at hle
      have hmm : ceilDiv (e - s) c * c ≤ (b - s) / c * c :=
        mul_le_mul_of_nonneg_right hle (le_of_lt hc)
      nlinarith
    refine ⟨{ start := s + (((b - s) / c).toNat : Int) * c,
              stop := min (s + (((b - s) / c).toNat : Int) * c + c - 1) e }, ?_, ?_⟩
    · rw [mem_makeChunks]
      exact ⟨((b - s) / c).toNat, by omega, rfl⟩
    · have hcast : ((((b - s) / c).toNat : Nat) : Int) = (b - s) / c :=
        Int.toNat_of_nonneg hq0
      rw [hcast]
      simp only [decide_eq_true_eq]
      constructor
      · nlinarith
      · exact le_min (by nlinarith) hbe

/-- The probes issued by the early-exit loop when some batch is positive:
everything up to and including the first positive batch, nothing after. -/
theorem runBatches_early_exit (p : Chunk → Bool) (bs : List (List Chunk))
    (h : bs.any (fun b => b.any p) = true) :
    runBatches p bs =
      (true, (bs.take (bs.findIdx (fun b => b.any p) + 1)).flatten) := by
  induction bs with
  | nil => simp at h
  | cons b rest ih =>
    by_cases hb : b.any p = true
    · simp [runBatches, hb, List.findIdx_cons]
    · have hb' : b.any p = false := by simpa using hb
      simp only [List.any_cons, hb', Bool.false_or] at h
      simp [runBatches, hb', List.findIdx_cons, ih h]

/-- The probes issued by the loop when every batch is negative: every batch
in full, in order. -/
theorem runBatches_all_negative (p : Chunk → Bool) (bs : List (List Chunk))
    (h : bs.any (fun b => b.any p) = false) :
    runBatches p bs = (false, bs.flatten) := by
  induction bs with
  | nil => simp [runBatches]
  | cons b rest ih =>
    simp only [List.any_cons, Bool.or_eq_false_iff] at h
    simp [runBatches, h.1, ih h.2]

theorem makeChunks_get (s e c : Int) (i : Nat) (h : i < (makeChunks s e c).length) :
    (makeChunks s e c).get ⟨i, h⟩ =
      { start := s + (i : Int) * c, stop := min (s + (i : Int) * c + c - 1) e } := by
  rw [List.get_eq_getElem]
  unfold makeChunks
  simp only [List.getElem_map, List.getElem_range]

/-- Accumulator-generalised characterisation of the index.ts
`checkAllMonthsActivity` loop. -/
theorem checkAllMonthsIndex_foldl (cm : Month → Bool) (configs : List MonthConfig)
    (acc : AllMonthsOutcome) :
    (configs.foldl (indexStep cm) acc).events =
      acc.events ++ configs.map (fun c => (c.name, if unsetAddr c then false else cm c.name))
    ∧ (configs.foldl (indexStep cm) acc).probed =
      acc.probed ++ (configs.filter (fun c => !unsetAddr c)).map (·.name)
    ∧ ∀ m, (configs.foldl (indexStep cm) acc).results m =
      (if configs.any (fun c => c.name == m && !unsetAddr c) then cm m else acc.results m) := by
  induction configs generalizing acc with
  | nil => simp
  | cons c rest ih =>
    obtain ⟨ih1, ih2, ih3⟩ := ih (indexStep cm acc c)
    by_cases hc : unsetAddr c = true
    · refine ⟨?_, ?_, ?_⟩
      · rw [List.foldl_cons, ih1]
        simp [indexStep, hc]
      · rw [List.foldl_cons, ih2]
        simp [indexStep, hc]
      · intro m
        rw [List.foldl_cons, ih3 m]
        simp [indexStep, hc]
    · have hc' : unsetAddr c = false := by simpa using hc
      refine ⟨?_, ?_, ?_⟩
      · rw [List.foldl_cons, ih1]
        simp [indexStep, hc']
      · rw [List.foldl_cons, ih2]
        simp [indexStep, hc']
      · intro m
        rw [List.foldl_cons, ih3 m]
        by_cases hm : c.name = m
        · subst hm
          rcases Bool.eq_false_or_eq_true
              (rest.any fun c1 => c1.name == c.name && !unsetAddr c1) with hr | hr <;>
            simp [indexStep, hc', List.any_cons, hr]
        · have h1 : (c.name == m) = false := by simp [hm]
          have hm' : ¬m = c.name := fun h => hm h.symm
          simp [indexStep, hc', List.any_cons, h1, hm']

/-! ## Claim theorems -/

/-- C1 (corrected), counterexample to the claim as stated: for
`startBlock = 0`, `endBlock = 50000` and `chunkSize = BLOCK_CHUNK_SIZE =
50000` (a range within the claim's domain), the generator produces the
single chunk `[0, 49999]`, so the union of the chunks does not cover the
inclusive range end `50000`. -/
theorem chunk_cover_counterexample :
    (0 : Int) ≤ 50000 ∧ (0 : Int) < BLOCK_CHUNK_SIZE ∧
    makeChunks 0 50000 BLOCK_CHUNK_SIZE = [{ start := 0, stop := 49999 }] ∧
    coversBlock (makeChunks 0 50000 BLOCK_CHUNK_SIZE) 50000 = false := by
  decide

/-- C1 (amended): for `startBlock ≤ endBlock` and positive `chunkSize`, the
generated chunks are consecutive (each chunk starts one block after the
previous one ends, the first starts at `startBlock`), each spans at most
`chunkSize` blocks and stays inside `[startBlock, endBlock]`, and the chunk
count is `ceil((endBlock - startBlock) / chunkSize)`; their union is exactly
`[startBlock, min endBlock (startBlock + count*chunkSize - 1)]` — so the
full inclusive range is covered exactly when `endBlock - startBlock` is not
a multiple of `chunkSize`, and when it is a multiple (including
`startBlock = endBlock`) the final block `endBlock` is not covered. -/
theorem chunk_partition_amended (s e c : Int) (hse : s ≤ e) (hc : 0 < c) :
    (makeChunks s e c).length = (ceilDiv (e - s) c).toNat
    ∧ (∀ h0 : 0 < (makeChunks s e c).length, ((makeChunks s e c).get ⟨0, h0⟩).start = s)
    ∧ (∀ i : Nat, ∀ h : i + 1 < (makeChunks s e c).length,
        ((makeChunks s e c).get ⟨i + 1, h⟩).start =
          ((makeChunks s e c).get ⟨i, Nat.lt_of_succ_lt h⟩).stop + 1)
    ∧ (∀ ch ∈ makeChunks s e c,
        s ≤ ch.start ∧ ch.start ≤ ch.stop ∧ ch.stop ≤ e ∧ ch.stop - ch.start + 1 ≤ c)
    ∧ (∀ b : Int, coversBlock (makeChunks s e c) b = true ↔
        s ≤ b ∧ b ≤ min e (s + ceilDiv (e - s) c * c - 1))
    ∧ ((e - s) % c ≠ 0 → ∀ b : Int, s ≤ b → b ≤ e → coversBlock (makeChunks s e c) b = true)
    ∧ ((e - s) % c = 0 → coversBlock (makeChunks s e c) e = false) := by
  have hlen := makeChunks_length s e c
  have hceil_ge := ceilDiv_mul_ge (e - s) c hc
  have hceil_le := ceilDiv_mul_le (e - s) c hc
  refine ⟨hlen, ?_, ?_, ?_, fun b => coversBlock_makeChunks_iff s e c b hc, ?_, ?_⟩
  · intro h0
    rw [makeChunks_get]
    simp
  · intro i h
    have hi2 : ((i : Int) + 1) + 1 ≤ ceilDiv (e - s) c := by
      rw [hlen] at h
      omega
    have hmul : (((i : Int) + 1) + 1) * c ≤ ceilDiv (e - s) c * c :=
      mul_le_mul_of_nonneg_right hi2 (le_of_lt hc)
    have hmul' : (i : Int) * c + 2 * c ≤ ceilDiv (e - s) c * c := by
      ring_nf at hmul ⊢
      linarith
    have hstop : s + (i : Int) * c + c - 1 ≤ e := by linarith
    rw [makeChunks_get, makeChunks_get]
    dsimp only
    rw [min_eq_left hstop]
    push_cast
    ring
  · intro ch hch
    rw [mem_makeChunks] at hch
    obtain ⟨i, hi, rfl⟩ := hch
    have hi1 : (i : Int) + 1 ≤ ceilDiv (e - s) c := by omega
    have hmul : ((i : Int) + 1) * c ≤ ceilDiv (e - s) c * c :=
      mul_le_mul_of_nonneg_right hi1 (le_of_lt hc)
    have hmul' : (i : Int) * c + c ≤ ceilDiv (e - s) c * c := by
      ring_nf at hmul ⊢
      linarith
    have hic : 0 ≤ (i : Int) * c := mul_nonneg (Int.natCast_nonneg i) (le_of_lt hc)
    have hstart_le : s + (i : Int) * c ≤ e := by linarith
    dsimp only
    refine ⟨by linarith, le_min (by linarith) hstart_le, min_le_right _ _, ?_⟩
    have hminl := min_le_left (s + (i : Int) * c + c - 1) e
    linarith
  · intro hmod b hb1 hb2
    rw [coversBlock_makeChunks_iff s e c b hc]
    have hne : ceilDiv (e - s) c * c ≠ e - s := by
      intro hEq
      exact hmod (by rw [← hEq]; exact Int.mul_emod_left _ _)
    refine ⟨hb1, le_min hb2 ?_⟩
    omega
  · intro hmod
    have hk := Int.ediv_add_emod (e - s) c
    rw [hmod, add_zero] at hk
    have hceil_eq : ceilDiv (e - s) c = (e - s) / c := by
      unfold ceilDiv
      have harg : e - s + c - 1 = (c - 1) + ((e - s) / c) * c := by
        rw [mul_comm]
        omega
      rw [harg, Int.add_mul_ediv_right _ _ (ne_of_gt hc),
        Int.ediv_eq_zero_of_lt (by omega) (by omega), zero_add]
    have htc : ceilDiv (e - s) c * c = e - s := by
      rw [hceil_eq, mul_comm]
      omega
    by_contra hcov
    have hcov' : coversBlock (makeChunks s e c) e = true := by
      simpa using hcov
    rw [coversBlock_makeChunks_iff s e c e hc] at hcov'
    have := le_trans hcov'.2 (min_le_right _ _)
    omega

/-- C1 (amended) witness at `startBlock = 0`, `endBlock = 7`,
`chunkSize = 3`: block 5 is covered. -/
theorem chunk_partition_amended_witness :
    coversBlock (makeChunks 0 7 3) 5 = true :=
  (chunk_partition_amended 0 7 3 (by decide) (by decide)).2.2.2.2.2.1 (by decide) 5
    (by decide) (by decide)

/-- C2 (code bug), evaluation at the failing input: on the proxy chain
`iopn-testnet`, `checkActivityForMonth`'s scan loop steps by
`maxConcurrent = 2` but slices each batch with the constant
`MAX_CONCURRENT_REQUESTS = 5`, so consecutive batches overlap.  For the
range `[0, 1700000]` (4 chunks of 500000), an all-false probe sees 6 probe
calls — chunks 3 and 4 are probed twice — instead of the claimed
`ceil((endBlock - startBlock)/chunkSize) = 4` probes, each chunk once. -/
theorem probe_count_failing_input :
    checkActivityForMonthScan (fun _ => false) ChainId.iopnTestnet 0 1700000 =
      (false,
        [{ start := 0, stop := 499999 }, { start := 500000, stop := 999999 },
         { start := 1000000, stop := 1499999 }, { start := 1500000, stop := 1700000 },
         { start := 1000000, stop := 1499999 }, { start := 1500000, stop := 1700000 }])
    ∧ (makeChunks 0 1700000 IOPN_BLOCK_CHUNK_SIZE).length = 4
    ∧ ceilDiv (1700000 - 0) IOPN_BLOCK_CHUNK_SIZE = 4 := by
  decide

/-- C3 (code bug), evaluation at the failing input: on the proxy chain
`iopn-testnet` (configured `maxConcurrency = IOPN_MAX_CONCURRENT_REQUESTS
= 2`), the range `[0, 2200000]` yields 5 chunks, and
`checkActivityForMonth`'s batches — sliced with the constant 5 — have sizes
5, 3 and 1, so the first two batches put more than 2 probes in flight. -/
theorem batch_size_failing_input :
    (checkActivityForMonthBatches ChainId.iopnTestnet 0 2200000).map List.length = [5, 3, 1]
    ∧ IOPN_MAX_CONCURRENT_REQUESTS = 2 := by
  decide

/-- C4: whenever some probed chunk is positive, the scan returns `true` and
the probes issued are exactly the batches up to and including the first
positive batch — no batch after it is started.  Stated for the shared batch
loop (`runBatches`) over an arbitrary batch list, and instantiated to the
per-chain checker `Iopn.checkActivity` and to the block-based scan of
`checkActivityForMonth`. -/
theorem positive_scan_short_circuits :
    (∀ (p : Chunk → Bool) (bs : List (List Chunk)),
      bs.any (fun b => b.any p) = true →
      runBatches p bs = (true, (bs.take (bs.findIdx (fun b => b.any p) + 1)).flatten))
    ∧ (∀ (p : Chunk → Bool) (latestBlock : Option Int) (s e : Int),
        (Iopn.batchesOf s (Iopn.effectiveEndBlock latestBlock e)).any
            (fun b => b.any p) = true →
        Iopn.checkActivity p latestBlock s e =
          (true, ((Iopn.batchesOf s (Iopn.effectiveEndBlock latestBlock e)).take
            ((Iopn.batchesOf s (Iopn.effectiveEndBlock latestBlock e)).findIdx
              (fun b => b.any p) + 1)).flatten))
    ∧ (∀ (p : Chunk → Bool) (chain : ChainId) (s e : Int),
        (checkActivityForMonthBatches chain s e).any (fun b => b.any p) = true →
        checkActivityForMonthScan p chain s e =
          (true, ((checkActivityForMonthBatches chain s e).take
            ((checkActivityForMonthBatches chain s e).findIdx
              (fun b => b.any p) + 1)).flatten)) := by
  refine ⟨runBatches_early_exit, ?_, ?_⟩
  · intro p latestBlock s e h
    unfold Iopn.checkActivity
    by_cases hguard : s > Iopn.effectiveEndBlock latestBlock e
    · exfalso
      have hnil : makeChunks s (Iopn.effectiveEndBlock latestBlock e) Iopn.CHUNK_SIZE = [] :=
        makeChunks_nil _ _ _ (by decide) (by omega)
      rw [Iopn.batchesOf, hnil] at h
      simp [scanBatches] at h
    · rw [if_neg hguard]
      exact runBatches_early_exit p _ h
  · intro p chain s e h
    unfold checkActivityForMonthScan
    exact runBatches_early_exit p _ h

/-- C4 witness: an iopn scan of `[1, 1200000]` (3 chunks, batches of 2)
whose positive chunk sits in the first batch issues exactly the two probes
of that batch and returns true. -/
theorem positive_scan_short_circuits_witness :
    Iopn.checkActivity (fun ch => ch.start == 500001) none 1 1200000 =
      (true, [{ start := 1, stop := 500000 }, { start := 500001, stop := 1000000 }]) := by
  have h := positive_scan_short_circuits.2.1 (fun ch => ch.start == 500001) none 1 1200000
    (by decide)
  rw [h]
  decide

/-- C5: writing a cache entry and reading it back under the same key yields
the stored boolean while strictly less than 3600000 ms have passed, yields
a miss (`none`) once the age reaches the TTL, and the read leaves the
stored entry in place (the getter takes the store immutably; the entry is
still present with its original timestamp after any number of reads). -/
theorem cache_roundtrip_ttl (store : Store) (t1 t2 : Int) (address : String)
    (chainSlug : ChainId) (month : Month) (b : Bool) :
    (t2 - t1 < 3600000 →
      getCachedResult (setCachedResult store t1 address chainSlug month b) t2
        address chainSlug month = some b)
    ∧ (3600000 ≤ t2 - t1 →
      getCachedResult (setCachedResult store t1 address chainSlug month b) t2
        address chainSlug month = none)
    ∧ getItem (setCachedResult store t1 address chainSlug month b)
        (getCacheKey address chainSlug month) = some ⟨b, t1⟩ := by
  have hget : getItem (setCachedResult store t1 address chainSlug month b)
      (getCacheKey address chainSlug month) = some ⟨b, t1⟩ := by
    simp [setCachedResult, setItem, getItem]
  refine ⟨?_, ?_, hget⟩
  · intro h
    simp [getCachedResult, hget, h]
  · intro h
    simp only [getCachedResult, hget]
    rw [if_neg (by omega)]

/-- C5 witness: a fresh read (10 ms old) returns the stored value, a read
at exactly the TTL boundary (3600000 ms old) misses. -/
theorem cache_roundtrip_ttl_witness :
    getCachedResult (setCachedResult [] 0 "0xAbC" ChainId.iopnTestnet Month.January true)
      10 "0xAbC" ChainId.iopnTestnet Month.January = some true
    ∧ getCachedResult (setCachedResult [] 0 "0xAbC" ChainId.iopnTestnet Month.January true)
      3600000 "0xAbC" ChainId.iopnTestnet Month.January = none :=
  ⟨(cache_roundtrip_ttl [] 0 10 "0xAbC" ChainId.iopnTestnet Month.January true).1 (by decide),
   (cache_roundtrip_ttl [] 0 3600000 "0xAbC" ChainId.iopnTestnet Month.January true).2.1
     (by decide)⟩

/-- C6 (corrected), counterexample to the claim as stated: the
`checkAllMonthsActivity` of activityCheck.ts has no unset-address skip — for
a configured February whose contract address is the placeholder "0x" it
still invokes the per-month check (issuing probes and cache writes) and
reports that check's result rather than false. -/
theorem all_months_counterexample :
    (checkAllMonthsActivityMonolith (fun _ => true)
      [{ name := .February, year := 2026, chainSlug := .iopnTestnet, contractAddress := "0x",
         startBlock := 1, endBlock := 10, metadataURI := "m" }]).probed = [Month.February]
    ∧ (checkAllMonthsActivityMonolith (fun _ => true)
      [{ name := .February, year := 2026, chainSlug := .iopnTestnet, contractAddress := "0x",
         startBlock := 1, endBlock := 10, metadataURI := "m" }]).events =
        [(Month.February, true)] := by
  constructor <;> rfl

/-- C6 (amended): the `checkAllMonthsActivity` of activityCheck/index.ts
iterates the configured months strictly sequentially in their configured
order — the `onMonthComplete` events are exactly the configured months in
order, reporting false for unset-address months and the per-month check's
result otherwise; the per-month check is invoked exactly for the months
with a set contract address, in order; and the returned mapping holds the
check's result for checked months and false everywhere else.  (The parallel
implementation in activityCheck.ts performs no skip; see the
counterexample.) -/
theorem all_months_index_characterization (cm : Month → Bool) (configs : List MonthConfig) :
    (checkAllMonthsActivityIndex cm configs).events =
      configs.map (fun c => (c.name, if unsetAddr c then false else cm c.name))
    ∧ (checkAllMonthsActivityIndex cm configs).probed =
      (configs.filter (fun c => !unsetAddr c)).map (·.name)
    ∧ ∀ m, (checkAllMonthsActivityIndex cm configs).results m =
      (if configs.any (fun c => c.name == m && !unsetAddr c) then cm m else false) := by
  have h := checkAllMonthsIndex_foldl cm configs ⟨fun _ => false, [], []⟩
  simpa [checkAllMonthsActivityIndex] using h

/-- C6 (amended) witness: with an unset February and a set January, only
January is checked. -/
theorem all_months_index_characterization_witness :
    (checkAllMonthsActivityIndex (fun _ => true)
      [{ name := .February, year := 2026, chainSlug := .iopnTestnet, contractAddress := "0x",
         startBlock := 1, endBlock := 10, metadataURI := "m" },
       { name := .January, year := 2026, chainSlug := .iopnTestnet, contractAddress := "0xA1",
         startBlock := 1, endBlock := 10, metadataURI := "m" }]).probed = [Month.January] := by
  rw [(all_months_index_characterization (fun _ => true) _).2.1]
  decide

/-- C7: with no fresh cache entry, a month that is not among the chain's
configured months (in particular any month of a chain with an empty config
list) makes `checkActivityForMonth` surface the explicit invalid-month
error instead of returning a boolean. -/
theorem invalid_month_throws (p : Chunk → Bool) (latestBlock : Option Int) (env : Env)
    (store : Store) (now : Int) (address : String) (chainSlug : ChainId) (month : Month)
    (hcache : getCachedResult store now address chainSlug month = none)
    (hmonth : month ∉ (getMonthConfigsForChain env chainSlug).map MonthConfig.name) :
    checkActivityForMonth p latestBlock env store now address chainSlug month =
      .error (.invalidMonth month chainSlug) := by
  unfold checkActivityForMonth
  rw [hcache]
  have hfind : (getMonthConfigsForChain env chainSlug).find? (fun c => c.name == month)
      = none := by
    rw [List.find?_eq_none]
    intro c hcmem
    simp only [beq_iff_eq]
    intro hEq
    exact hmonth (List.mem_map.mpr ⟨c, hcmem, hEq⟩)
  rw [hfind]

/-- C7 witness: `ethereum-sepolia` has an empty month list, so asking for
September with an empty cache throws. -/
theorem invalid_month_throws_witness :
    checkActivityForMonth (fun _ => false) none (fun _ => none) [] 0 "0xAbC"
      ChainId.ethereumSepolia Month.September =
      .error (.invalidMonth Month.September ChainId.ethereumSepolia) :=
  invalid_month_throws (fun _ => false) none (fun _ => none) [] 0 "0xAbC"
    ChainId.ethereumSepolia Month.September (by rfl) (by simp [getMonthConfigsForChain])

/-- C8: the prober is a total boolean function of the exchange outcome — it
returns true exactly for a parsed response whose status is "1" with a
present, non-empty result array, and false for every other parsed response,
for a transport failure and for a malformed body. -/
theorem prober_never_raises (outcome : FetchOutcome) :
    fetchTransactions outcome = true ↔
      ∃ (data : TxListResponse) (txs : List Tx),
        outcome = .response data ∧ data.status = "1" ∧ data.result = some txs ∧ txs ≠ [] := by
  cases outcome with
  | transportError => simp [fetchTransactions]
  | parseError => simp [fetchTransactions]
  | response data =>
    cases hr : data.result with
    | none => simp [fetchTransactions, hr]
    | some txs =>
      simp [fetchTransactions, hr, List.length_pos, and_assoc]

/-- C8 witness: a status-"1" response with one transaction probes true. -/
theorem prober_never_raises_witness :
    fetchTransactions (.response
      ⟨"1", "OK", some [⟨"1", "2", "h", "f", "t", "v"⟩]⟩) = true :=
  (prober_never_raises _).mpr ⟨_, _, rfl, rfl, rfl, by decide⟩

/-- C9 (corrected), counterexample to the claim as stated: tip resolution
can succeed with the value 0 (a `"0"` block-number string is truthy, parses
to 0 and is returned), but `if (latestBlock)` treats the 0 tip as falsy, so
the effective end block stays at the configured 100 instead of the claimed
`min(100, 0) = 0`. -/
theorem tip_zero_counterexample :
    Iopn.getLatestBlock (.response "1" (some "0")) = some 0
    ∧ Iopn.effectiveEndBlock (some 0) 100 = 100
    ∧ min (100 : Int) 0 = 0
    ∧ Iopn.effectiveEndBlock (some 0) 100 ≠ min (100 : Int) 0 := by
  refine ⟨?_, by decide, by decide, by decide⟩
  rfl

/-- C9 (amended): a successful tip resolution with a nonzero tip `T` clamps
the effective end block to `min(configuredEndBlock, T)`; a zero tip — being
falsy — is treated exactly like a failed resolution, leaving the configured
end block unmodified; and on failed resolution the whole scan coincides
with the scan in which tip resolution was never attempted. -/
theorem tip_clamping_amended :
    (∀ (e b : Int), b ≠ 0 → Iopn.effectiveEndBlock (some b) e = min e b)
    ∧ (∀ e : Int, Iopn.effectiveEndBlock none e = e)
    ∧ (∀ e : Int, Iopn.effectiveEndBlock (some 0) e = e)
    ∧ (∀ (p : Chunk → Bool) (s e : Int),
        Iopn.checkActivity p none s e = Iopn.scanWithoutTipResolution p s e) := by
  refine ⟨?_, fun e => rfl, fun e => rfl, fun p s e => rfl⟩
  intro e b hb
  simp [Iopn.effectiveEndBlock, hb]

/-- C9 (amended) witness: a nonzero resolved tip 50 clamps a configured end
block of 100 down to 50. -/
theorem tip_clamping_amended_witness :
    Iopn.effectiveEndBlock (some 50) 100 = min (100 : Int) 50 :=
  tip_clamping_amended.1 100 50 (by decide)

/-- C10: calling `clearActivityCache` with exactly one of its two optional
arguments falls into the global-clear branch: the resulting store is the
original one with every entry whose key has the reserved `activity_`
leading marker removed — across all addresses, chains and months — and
nothing else removed. -/
theorem single_argument_clear_is_global (env : Env) (store : Store) :
    (∀ a : String, clearActivityCache (some a) none env store =
      store.filter fun kv => !(startsWithActivity kv.1))
    ∧ (∀ c : ChainId, clearActivityCache none (some c) env store =
      store.filter fun kv => !(startsWithActivity kv.1)) :=
  ⟨fun _ => rfl, fun _ => rfl⟩

/-- C10 witness: clearing with only an address removes the `activity_` keys
of all chains and months and keeps unrelated keys. -/
theorem single_argument_clear_is_global_witness :
    clearActivityCache (some "0xAbC") none (fun _ => none)
      [("activity_x", { hasActivity := true, timestamp := 0 }),
       ("other", { hasActivity := false, timestamp := 0 })] =
      [("other", { hasActivity := false, timestamp := 0 })] := by
  rw [(single_argument_clear_is_global (fun _ => none) _).1 "0xAbC"]
  decide

end ActivityProof
